import Mathlib

/-!
Verification of `elsoul/child-process` (`src/mod.ts`).

The module has four functions:
* `splitArgs` — a pure tokenizer splitting a command string into arguments,
  honouring double quotes, single quotes and backslash escapes;
* `spawnSync` — spawns a child process with inherited stdio and maps its exit
  status to an `ExecResult`;
* `exec` — spawns a child process with captured output and maps exit code plus
  decoded, trimmed stdout/stderr to an `ExecResult`;
* `sshCmd` — composes an ssh invocation string and delegates to `spawnSync`.

The host process facility (`Deno.Command`) is modelled as an oracle function
from the executable name (`Option String`, `none` when the token list is
empty, mirroring `argsArray[0]` being `undefined`), the argument list and the
optional working directory to a `SpawnOutcome`: either a thrown value (caught
by the `try`/`catch` in the source) or the process result.  Byte-to-text
decoding (`TextDecoder.decode`) is abstracted: the oracle yields the captured
streams already as text.
-/

namespace ChildProcess

/-- The double-quote character, `'"'` in the source. -/
def dquoteChar : Char := Char.ofNat 34

/-- The single-quote character, `"'"` in the source. -/
def squoteChar : Char := Char.ofNat 39

/-- The backslash character, `'\\'` in the source. -/
def backslashChar : Char := Char.ofNat 92

/-- The loop state of `splitArgs`: the accumulating token buffer `current`
and the three boolean flags `inDoubleQuotes`, `inSingleQuotes`, `escaped`. -/
structure ScanState where
  current : String
  inDoubleQuotes : Bool
  inSingleQuotes : Bool
  escaped : Bool
deriving DecidableEq, Repr

/-- The initial loop state of `splitArgs`:
`current = ''`, all flags `false`. -/
def initState : ScanState := ⟨"", false, false, false⟩

/-- One iteration of the `for` loop body of `splitArgs` (src/mod.ts lines
15–33) on character `c`: returns the updated state and the list of tokens
pushed onto `args` during this iteration (`[]` or a singleton). -/
def scanStep (st : ScanState) (c : Char) : ScanState × List String :=
  if st.escaped = true then
    ({ st with current := st.current.push c, escaped := false }, [])
  else if c = backslashChar then
    ({ st with escaped := true }, [])
  else if c = dquoteChar ∧ st.inSingleQuotes = false then
    ({ st with inDoubleQuotes := !st.inDoubleQuotes }, [])
  else if c = squoteChar ∧ st.inDoubleQuotes = false then
    ({ st with inSingleQuotes := !st.inSingleQuotes }, [])
  else if c = ' ' ∧ st.inDoubleQuotes = false ∧ st.inSingleQuotes = false then
    if st.current.length > 0 then ({ st with current := "" }, [st.current])
    else (st, [])
  else
    ({ st with current := st.current.push c }, [])

/-- Runs the `splitArgs` loop over the remaining characters from a given
state, returning all tokens pushed plus the final state. -/
def scanRun : List Char → ScanState → List String × ScanState
  | [], st => ([], st)
  | c :: cs, st =>
    let step := scanStep st c
    let rest := scanRun cs step.1
    (step.2 ++ rest.1, rest.2)

/-- `splitArgs` (src/mod.ts lines 7–38): run the scan from the initial state
over the characters of `cmd`, then flush the final non-empty buffer. -/
def splitArgs (cmd : String) : List String :=
  let r := scanRun cmd.data initState
  r.1 ++ (if r.2.current.length > 0 then [r.2.current] else [])

/-- The sequence of loop states visited while scanning the characters,
including the state before the first character and after the last. -/
def scanStates : List Char → ScanState → List ScanState
  | [], st => [st]
  | c :: cs, st => st :: scanStates cs (scanStep st c).1

/-- A value thrown inside the `try` blocks: either a JavaScript `Error`
(carrying its `message`) or any other thrown value. -/
inductive Thrown where
  | error (message : String)
  | other
deriving DecidableEq

/-- Outcome of asking the host to spawn and await a process: either a value
thrown during setup/execution, or the process result `α`. -/
inductive SpawnOutcome (α : Type) where
  | thrown (e : Thrown)
  | ok (a : α)

/-- `Deno.ChildStatus` for an awaited child: the numeric exit `code`.  Its
`success` field is true exactly when the child exited with code 0. -/
structure ChildStatus where
  code : Int
deriving DecidableEq

/-- The `success` field of `Deno.ChildStatus`: set iff the exit code is 0. -/
def ChildStatus.success (s : ChildStatus) : Bool := s.code == 0

/-- The result of `command.output()`: exit `code` and the captured output
streams, already decoded to text (decoding is abstracted into the oracle). -/
structure CommandOutput where
  code : Int
  stdout : String
  stderr : String

/-- `ExecResult` (src/mod.ts lines 43–53). -/
structure ExecResult where
  success : Bool
  message : String
deriving DecidableEq, Repr

/-- Is `c` one of the code points removed by JavaScript
`String.prototype.trim` (ECMAScript WhiteSpace or LineTerminator)? -/
def isJsWhitespace (c : Char) : Bool :=
  c.val.toNat ∈ [9, 10, 11, 12, 13, 32, 160, 0x1680,
    0x2000, 0x2001, 0x2002, 0x2003, 0x2004, 0x2005, 0x2006, 0x2007,
    0x2008, 0x2009, 0x200A, 0x2028, 0x2029, 0x202F, 0x205F, 0x3000, 0xFEFF]

/-- JavaScript `String.prototype.trim`: strip leading and trailing
whitespace code points. -/
def jsTrim (s : String) : String :=
  ⟨((s.data.dropWhile isJsWhitespace).reverse.dropWhile isJsWhitespace).reverse⟩

/-- `handleError` (src/mod.ts lines 139–152): an `Error` is reported by its
own `message`; any other thrown value by a fixed generic string.  (The
`console.error` logging side effect is outside the result value.) -/
def handleError : Thrown → ExecResult
  | .error m => ⟨false, m⟩
  | .other => ⟨false, "An unknown error occurred"⟩

/-- A host oracle for a spawn returning a result of type `α`: takes
`firstCmd` (`none` models `undefined` for an empty token list), the argument
list, and the optional working directory. -/
def SpawnHost (α : Type) := Option String → List String → Option String → SpawnOutcome α

/-- `spawnSync` (src/mod.ts lines 60–94): tokenizes `cmd`, asks the host to
spawn with inherited stdio and await the status, then maps the status.  A
thrown value is routed to `handleError` by the `catch`. -/
def spawnSync (cmd : String) (cwd : Option String)
    (hostFn : SpawnHost ChildStatus) : ExecResult :=
  let argsArray := splitArgs cmd
  let firstCmd := argsArray.head?
  let args := argsArray.drop 1
  match hostFn firstCmd args cwd with
  | .thrown e => handleError e
  | .ok status =>
    if status.success then ⟨true, "Process completed"⟩
    else ⟨false, "Process failed with code " ++ toString status.code⟩

/-- `exec` (src/mod.ts lines 102–132): tokenizes `cmd`, asks the host to run
the process collecting output, then maps: non-zero exit code to the trimmed
captured stderr as a failure, zero exit to the trimmed captured stdout as a
success.  A thrown value is routed to `handleError` by the `catch`. -/
def exec (cmd : String) (cwd : Option String)
    (hostFn : SpawnHost CommandOutput) : ExecResult :=
  let argsArray := splitArgs cmd
  let firstCmd := argsArray.head?
  let args := argsArray.drop 1
  match hostFn firstCmd args cwd with
  | .thrown e => handleError e
  | .ok out =>
    if out.code ≠ 0 then ⟨false, jsTrim out.stderr⟩
    else ⟨true, jsTrim out.stdout⟩

/-- `sshCmd` (src/mod.ts lines 177–187): composes the ssh invocation string
by plain interpolation and delegates to `spawnSync` with no local working
directory.  The TypeScript default `cwd = '~'` is modelled by callers
passing `"~"` explicitly. -/
def sshCmd (user host rsaKeyPath execCmd : String) (cwd : String)
    (hostFn : SpawnHost ChildStatus) : ExecResult :=
  let cmd := "ssh -i " ++ rsaKeyPath ++ " -o StrictHostKeyChecking=no " ++
    user ++ "@" ++ host ++ " -p 22 \x27cd " ++ cwd ++
    " && source ~/.profile && " ++ execCmd ++ "\x27"
  spawnSync cmd none hostFn

/-- A character that is not a space, a double quote, a single quote or a
backslash: the loop appends such a character to the buffer unconditionally. -/
def plainChar (c : Char) : Prop :=
  c ≠ ' ' ∧ c ≠ dquoteChar ∧ c ≠ squoteChar ∧ c ≠ backslashChar

instance (c : Char) : Decidable (plainChar c) := by
  unfold plainChar; infer_instance

/-- Running the scan over `cs` from state `st` and flushing the final
buffer; `splitArgs cmd` is `runFlush cmd.data initState`. -/
def runFlush (cs : List Char) (st : ScanState) : List String :=
  let r := scanRun cs st
  r.1 ++ (if r.2.current.length > 0 then [r.2.current] else [])

/-- Joins tokens back into one string with single spaces between them. -/
def joinSpace : List String → String
  | [] => ""
  | [t] => t
  | t :: ts => t ++ " " ++ joinSpace ts

/-- Does the character list contain two consecutive spaces? `false` means
the input is single-spaced. -/
def noDoubleSpace : List Char → Bool
  | c1 :: c2 :: rest => (!(c1 == ' ' && c2 == ' ')) && noDoubleSpace (c2 :: rest)
  | _ => true

theorem splitArgs_eq_runFlush (s : String) :
    splitArgs s = runFlush s.data initState := rfl

theorem data_empty : ("" : String).data = [] := rfl

theorem append_data (a b : String) : (a ++ b).data = a.data ++ b.data := rfl

theorem runFlush_nil (st : ScanState) :
    runFlush [] st = if st.current.length > 0 then [st.current] else [] := by
  simp [runFlush, scanRun]

theorem length_pos_of_data_ne_nil (s : String) (h : s.data ≠ []) :
    s.length > 0 := by
  cases s with
  | mk d => simpa [String.length, List.length_pos] using h

theorem data_ne_nil_of_length_pos (s : String) (h : s.length > 0) :
    s.data ≠ [] := by
  cases s with
  | mk d => simpa [String.length, List.length_pos] using h

theorem runFlush_cons (c : Char) (cs : List Char) (st : ScanState) :
    runFlush (c :: cs) st = (scanStep st c).2 ++ runFlush cs (scanStep st c).1 := by
  simp [runFlush, scanRun, List.append_assoc]

theorem push_data (s : String) (c : Char) : (s.push c).data = s.data ++ [c] := rfl

theorem length_push_pos (s : String) (c : Char) : (s.push c).length > 0 := by
  cases s with
  | mk d => simp [String.push, String.length]

theorem scanStep_plain (st : ScanState) (c : Char) (hc : plainChar c) :
    scanStep st c = ({ st with current := st.current.push c, escaped := false }, []) := by
  obtain ⟨h1, h2, h3, h4⟩ := hc
  by_cases he : st.escaped = true
  · simp [scanStep, he]
  · simp only [Bool.not_eq_true] at he
    simp [scanStep, he, h1, h2, h3, h4]

theorem scanStep_space (st : ScanState) (he : st.escaped = false)
    (hd : st.inDoubleQuotes = false) (hsq : st.inSingleQuotes = false) :
    scanStep st ' ' =
      (if st.current.length > 0 then ({ st with current := "" }, [st.current])
       else (st, [])) := by
  have hb : (' ' : Char) ≠ backslashChar := by decide
  have hq : (' ' : Char) ≠ dquoteChar := by decide
  have hq2 : (' ' : Char) ≠ squoteChar := by decide
  simp [scanStep, he, hd, hsq, hb, hq, hq2]

example : splitArgs "a b c" = ["a", "b", "c"] := by decide
example : splitArgs "a \x22b c\x22 d" = ["a", "b c", "d"] := by decide
example : splitArgs "a\x27b c\x27d" = ["ab cd"] := by decide
example : splitArgs "a\\ b" = ["a b"] := by decide
example : splitArgs "" = [] := by decide
example : splitArgs "   " = [] := by decide
example : splitArgs "\x22\x22" = [] := by decide
example : splitArgs "\t" = ["\t"] := by decide
example : jsTrim " hi\n" = "hi" := by decide
example : jsTrim "" = "" := by decide

/-- C1: in capturing mode (`exec`), exit code 0 yields
`{success := true, message := trimmed captured stdout}` and a non-zero exit
code yields `{success := false, message := trimmed captured stderr}`; in
particular an empty captured stderr trims to the empty message. -/
theorem exec_exit_mapping (cmd : String) (cwd : Option String)
    (hostFn : SpawnHost CommandOutput) (out : CommandOutput)
    (h : hostFn (splitArgs cmd).head? ((splitArgs cmd).drop 1) cwd = .ok out) :
    (out.code = 0 → exec cmd cwd hostFn = ⟨true, jsTrim out.stdout⟩) ∧
    (out.code ≠ 0 → exec cmd cwd hostFn = ⟨false, jsTrim out.stderr⟩) ∧
    jsTrim "" = "" := by
  simp only [List.drop_one] at h
  refine ⟨fun h0 => ?_, fun h0 => ?_, rfl⟩ <;> simp [exec, h, h0]

/-- C1 witness: concrete zero-exit and non-zero-exit capturing runs. -/
theorem exec_exit_mapping_witness :
    exec "echo hi" none (fun _ _ _ => SpawnOutcome.ok ⟨0, " hi\n", ""⟩) = ⟨true, "hi"⟩ ∧
    exec "false" none (fun _ _ _ => SpawnOutcome.ok ⟨1, "", "boom\n"⟩) = ⟨false, "boom"⟩ := by
  constructor
  · exact ((exec_exit_mapping "echo hi" none
      (fun _ _ _ => SpawnOutcome.ok ⟨0, " hi\n", ""⟩) ⟨0, " hi\n", ""⟩ rfl).1 rfl).trans
      (by decide)
  · exact ((exec_exit_mapping "false" none
      (fun _ _ _ => SpawnOutcome.ok ⟨1, "", "boom\n"⟩) ⟨1, "", "boom\n"⟩ rfl).2.1
      (by decide)).trans (by decide)

/-- C2: in interactive mode (`spawnSync`), a successful status (exit code 0)
yields exactly `{success := true, message := "Process completed"}` and a
non-zero exit code `N` yields exactly
`{success := false, message := "Process failed with code N"}`. -/
theorem spawnSync_exit_mapping (cmd : String) (cwd : Option String)
    (hostFn : SpawnHost ChildStatus) (st : ChildStatus)
    (h : hostFn (splitArgs cmd).head? ((splitArgs cmd).drop 1) cwd = .ok st) :
    (st.code = 0 → spawnSync cmd cwd hostFn = ⟨true, "Process completed"⟩) ∧
    (st.code ≠ 0 → spawnSync cmd cwd hostFn =
      ⟨false, "Process failed with code " ++ toString st.code⟩) := by
  simp only [List.drop_one] at h
  constructor <;> intro h0 <;> simp [spawnSync, h, ChildStatus.success, h0]

/-- C2 witness: concrete zero-exit and exit-code-7 interactive runs. -/
theorem spawnSync_exit_mapping_witness :
    spawnSync "ls" none (fun _ _ _ => SpawnOutcome.ok ⟨0⟩) =
      ⟨true, "Process completed"⟩ ∧
    spawnSync "ls" none (fun _ _ _ => SpawnOutcome.ok ⟨7⟩) =
      ⟨false, "Process failed with code 7"⟩ := by
  constructor
  · exact (spawnSync_exit_mapping "ls" none
      (fun _ _ _ => SpawnOutcome.ok ⟨0⟩) ⟨0⟩ rfl).1 rfl
  · exact ((spawnSync_exit_mapping "ls" none
      (fun _ _ _ => SpawnOutcome.ok ⟨7⟩) ⟨7⟩ rfl).2 (by decide)).trans (by decide)

/-- C3: every public operation is total — a thrown value is normalized by
`handleError` into a result value: an `Error` gives
`{success := false, message := its own message}`, any other thrown value
gives the fixed generic string; `spawnSync`, `exec` and `sshCmd` all return
`handleError` of the thrown value instead of propagating it. -/
theorem public_ops_total_normalize :
    (∀ m, handleError (.error m) = ⟨false, m⟩) ∧
    (handleError .other = ⟨false, "An unknown error occurred"⟩) ∧
    (∀ cmd cwd e (hostFn : SpawnHost ChildStatus),
      (∀ a b c, hostFn a b c = .thrown e) →
      spawnSync cmd cwd hostFn = handleError e) ∧
    (∀ cmd cwd e (hostFn : SpawnHost CommandOutput),
      (∀ a b c, hostFn a b c = .thrown e) →
      exec cmd cwd hostFn = handleError e) ∧
    (∀ u hst k ec d e (hostFn : SpawnHost ChildStatus),
      (∀ a b c, hostFn a b c = .thrown e) →
      sshCmd u hst k ec d hostFn = handleError e) := by
  refine ⟨fun m => rfl, rfl, ?_, ?_, ?_⟩ <;> intros <;>
    simp [spawnSync, exec, sshCmd, *]

/-- C3 witness: concrete thrown values through each public operation. -/
theorem public_ops_total_normalize_witness :
    spawnSync "ls" none (fun _ _ _ => .thrown (.error "spawn failed")) =
      ⟨false, "spawn failed"⟩ ∧
    exec "ls" none (fun _ _ _ => .thrown .other) =
      ⟨false, "An unknown error occurred"⟩ ∧
    sshCmd "u" "h" "k" "cmd" "~" (fun _ _ _ => .thrown (.error "no ssh")) =
      ⟨false, "no ssh"⟩ := by
  refine ⟨?_, ?_, ?_⟩
  · exact (public_ops_total_normalize.2.2.1 "ls" none _ _ (fun _ _ _ => rfl)).trans rfl
  · exact (public_ops_total_normalize.2.2.2.1 "ls" none _ _ (fun _ _ _ => rfl)).trans rfl
  · exact (public_ops_total_normalize.2.2.2.2 "u" "h" "k" "cmd" "~" _ _
      (fun _ _ _ => rfl)).trans rfl

/-- C4: `sshCmd user host key cmd cwd` returns exactly the result of
`spawnSync` on the single composed string
`ssh -i key -o StrictHostKeyChecking=no user@host -p 22 'cd cwd && source
~/.profile && cmd'` (pure interpolation, no escaping), unchanged; the
TypeScript default for the remote directory is `~`. -/
theorem sshCmd_delegates_spawnSync (user host rsaKeyPath execCmd cwd : String)
    (hostFn : SpawnHost ChildStatus) :
    sshCmd user host rsaKeyPath execCmd cwd hostFn =
      spawnSync ("ssh -i " ++ rsaKeyPath ++ " -o StrictHostKeyChecking=no " ++
        user ++ "@" ++ host ++ " -p 22 \x27cd " ++ cwd ++
        " && source ~/.profile && " ++ execCmd ++ "\x27") none hostFn := rfl

/-- C7: with the escape-pending flag set, the next character is appended to
the buffer literally — it never toggles a quote flag and never separates
tokens; in particular `splitArgs "a\ b"` (four characters) is `["a b"]`. -/
theorem escape_literal_append :
    (∀ (st : ScanState) (c : Char), st.escaped = true →
      scanStep st c = ({ st with current := st.current.push c, escaped := false }, [])) ∧
    splitArgs "a\\ b" = ["a b"] := by
  constructor
  · intro st c h; simp [scanStep, h]
  · decide

/-- C7 witness: an escaped space (and an escaped backslash) is appended
literally; the four-character input `a\ b` tokenizes to `["a b"]`. -/
theorem escape_literal_append_witness :
    scanStep ⟨"a", false, false, true⟩ ' ' = (⟨"a ", false, false, false⟩, []) ∧
    scanStep ⟨"a", false, false, true⟩ backslashChar =
      (⟨"a\\", false, false, false⟩, []) ∧
    splitArgs "a\\ b" = ["a b"] :=
  ⟨escape_literal_append.1 ⟨"a", false, false, true⟩ ' ' rfl,
   escape_literal_append.1 ⟨"a", false, false, true⟩ backslashChar rfl,
   escape_literal_append.2⟩

/-- C10: the loop splits only at the literal space character; any other
unescaped character that is not a quote or a backslash — in particular any
other whitespace character such as tab — is appended to the buffer as an
ordinary character, and `splitArgs "\t"` is `["\t"]`, not `[]`. -/
theorem tab_not_separator :
    (∀ (st : ScanState) (c : Char), st.escaped = false →
      isJsWhitespace c = true → c ≠ ' ' → c ≠ backslashChar →
      c ≠ dquoteChar → c ≠ squoteChar →
      scanStep st c = ({ st with current := st.current.push c }, [])) ∧
    splitArgs "\t" = ["\t"] := by
  constructor
  · intro st c he _ h1 h2 h3 h4
    simp [scanStep, he, h1, h2, h3, h4]
  · decide

/-- C10 witness: a tab is appended to the buffer, and a lone tab tokenizes
to the one-element list containing the tab. -/
theorem tab_not_separator_witness :
    scanStep initState (Char.ofNat 9) = (⟨"\t", false, false, false⟩, []) ∧
    splitArgs "\t" = ["\t"] :=
  ⟨tab_not_separator.1 initState (Char.ofNat 9) rfl (by decide) (by decide)
    (by decide) (by decide) (by decide), tab_not_separator.2⟩

theorem scanStep_preserves_exclusive (st : ScanState) (c : Char)
    (h : ¬(st.inDoubleQuotes = true ∧ st.inSingleQuotes = true)) :
    ¬((scanStep st c).1.inDoubleQuotes = true ∧
      (scanStep st c).1.inSingleQuotes = true) := by
  unfold scanStep
  split_ifs <;> simp_all

/-- C9: along the whole left-to-right scan, the two quote flags are mutually
exclusive — no visited state has `inDoubleQuotes` and `inSingleQuotes` both
true. -/
theorem quote_flags_mutually_exclusive (cmd : String) (st : ScanState)
    (h : st ∈ scanStates cmd.data initState) :
    ¬(st.inDoubleQuotes = true ∧ st.inSingleQuotes = true) := by
  have key : ∀ (cs : List Char) (s0 : ScanState),
      ¬(s0.inDoubleQuotes = true ∧ s0.inSingleQuotes = true) →
      ∀ s ∈ scanStates cs s0,
        ¬(s.inDoubleQuotes = true ∧ s.inSingleQuotes = true) := by
    intro cs
    induction cs with
    | nil => intro s0 h0 s hs; simp [scanStates] at hs; subst hs; exact h0
    | cons c cs ih =>
      intro s0 h0 s hs
      simp only [scanStates, List.mem_cons] at hs
      rcases hs with rfl | hs
      · exact h0
      · exact ih _ (scanStep_preserves_exclusive s0 c h0) s hs
  exact key cmd.data initState (by simp [initState]) st h

/-- C9 witness: the flag states visited while scanning `a"b'c` all satisfy
the exclusivity invariant; instantiated at the state after the quote. -/
theorem quote_flags_mutually_exclusive_witness :
    ¬((⟨"a", true, false, false⟩ : ScanState).inDoubleQuotes = true ∧
      (⟨"a", true, false, false⟩ : ScanState).inSingleQuotes = true) :=
  quote_flags_mutually_exclusive "a\x22b\x27c" ⟨"a", true, false, false⟩
    (by decide)

/-- C5 counterexample: the two-character input `""` is non-empty, is not
whitespace-only, and contains a non-space character, yet it tokenizes to the
empty list — the two quote characters are consumed and the buffer stays
empty. -/
theorem splitArgs_nonempty_counterexample :
    splitArgs "\x22\x22" = [] ∧ ("\x22\x22" : String) ≠ "" ∧
    (∀ c ∈ ("\x22\x22" : String).data, isJsWhitespace c = false) ∧
    (∀ c ∈ ("\x22\x22" : String).data, c ≠ ' ') := by decide

theorem runFlush_ne_nil_of_current (cs : List Char) :
    ∀ st : ScanState, st.current.length > 0 → runFlush cs st ≠ [] := by
  induction cs with
  | nil => intro st h; simp [runFlush, scanRun, h]
  | cons c cs ih =>
    intro st h
    rw [runFlush_cons]
    have key : (scanStep st c).1.current.length > 0 ∨
        (scanStep st c).2 = [st.current] := by
      unfold scanStep
      split_ifs <;> simp_all [length_push_pos]
    rcases key with hcur | hemit
    · intro hc
      rcases List.append_eq_nil.mp hc with ⟨_, h2⟩
      exact ih _ hcur h2
    · rw [hemit]
      intro hc
      rcases List.append_eq_nil.mp hc with ⟨h1, _⟩
      exact List.cons_ne_nil _ _ h1

theorem runFlush_ne_nil_of_plain (cs : List Char) :
    ∀ st : ScanState, (∃ c ∈ cs, plainChar c) → runFlush cs st ≠ [] := by
  induction cs with
  | nil => intro st h; simp at h
  | cons c cs ih =>
    rintro st ⟨c0, hc0, hplain⟩
    rw [runFlush_cons]
    rcases List.mem_cons.mp hc0 with rfl | hmem
    · rw [scanStep_plain st c0 hplain]
      simp only [List.nil_append]
      refine runFlush_ne_nil_of_current cs _ ?_
      exact length_push_pos st.current c0
    · intro hc
      rcases List.append_eq_nil.mp hc with ⟨_, h2⟩
      exact ih _ ⟨c0, hmem, hplain⟩ h2

/-- C5 amended: for every input containing at least one character that is
not a space, not a double quote, not a single quote and not a backslash
(such inputs are non-empty, not whitespace-only and have a non-space
character), the token list is non-empty. -/
theorem splitArgs_nonempty_amended (s : String)
    (h : ∃ c ∈ s.data, plainChar c) : splitArgs s ≠ [] := by
  rw [splitArgs_eq_runFlush]
  exact runFlush_ne_nil_of_plain s.data initState h

/-- C5 amended witness: the input `a` has a plain character and tokenizes to
a non-empty list. -/
theorem splitArgs_nonempty_amended_witness : splitArgs "a" ≠ [] :=
  splitArgs_nonempty_amended "a" (by decide)

/-- C6 counterexample: the input consisting of a single tab character is
whitespace-only, yet it tokenizes to `["\t"]`, not to the empty sequence —
only the literal space character separates tokens. -/
theorem splitArgs_whitespace_counterexample :
    (∀ c ∈ ("\t" : String).data, isJsWhitespace c = true) ∧
    splitArgs "\t" = ["\t"] ∧ splitArgs "\t" ≠ [] := by decide

/-- C6 amended: tokenizing the empty string, and every input consisting only
of space characters (U+0020), yields the empty token sequence. -/
theorem splitArgs_spaces_empty (s : String) (h : ∀ c ∈ s.data, c = ' ') :
    splitArgs s = [] := by
  have key : ∀ cs : List Char, (∀ c ∈ cs, c = ' ') →
      scanRun cs initState = ([], initState) := by
    intro cs
    induction cs with
    | nil => intro _; rfl
    | cons c cs ih =>
      intro hall
      have hc : c = ' ' := hall c (by simp)
      subst hc
      have hstep : scanStep initState ' ' = (initState, []) := by decide
      simp [scanRun, hstep, ih (fun c hc => hall c (by simp [hc]))]
  rw [splitArgs_eq_runFlush]
  unfold runFlush
  rw [key s.data h]
  decide

/-- C6 amended witness: the empty string and a three-space string both
tokenize to the empty sequence. -/
theorem splitArgs_spaces_empty_witness :
    splitArgs "" = [] ∧ splitArgs "   " = [] :=
  ⟨splitArgs_spaces_empty "" (by decide), splitArgs_spaces_empty "   " (by decide)⟩

theorem runFlush_tokens_plain (cs : List Char) :
    ∀ st : ScanState, st.inDoubleQuotes = false → st.inSingleQuotes = false →
      st.escaped = false →
      (∀ c ∈ cs, c ≠ dquoteChar ∧ c ≠ squoteChar ∧ c ≠ backslashChar) →
      (∀ c ∈ st.current.data, plainChar c) →
      ∀ t ∈ runFlush cs st, t.data ≠ [] ∧ ∀ c ∈ t.data, plainChar c := by
  induction cs with
  | nil =>
    intro st _ _ _ _ hcur t ht
    rw [runFlush_nil] at ht
    by_cases hlen : st.current.length > 0
    · rw [if_pos hlen] at ht
      have : t = st.current := by simpa using ht
      subst this
      exact ⟨data_ne_nil_of_length_pos _ hlen, hcur⟩
    · rw [if_neg hlen] at ht
      simp at ht
  | cons c cs ih =>
    intro st hd hsq he hall hcur t ht
    rw [runFlush_cons] at ht
    have hc := hall c (by simp)
    by_cases hsp : c = ' '
    · subst hsp
      rw [scanStep_space st he hd hsq] at ht
      by_cases hlen : st.current.length > 0
      · rw [if_pos hlen] at ht
        simp only [List.mem_append, List.mem_singleton] at ht
        rcases ht with rfl | ht
        · exact ⟨data_ne_nil_of_length_pos _ hlen, hcur⟩
        · refine ih _ (by simp [hd]) (by simp [hsq]) (by simp [he])
            (fun x hx => hall x (by simp [hx])) ?_ t ht
          intro x hx
          simp [data_empty] at hx
      · rw [if_neg hlen] at ht
        simp only [List.nil_append] at ht
        exact ih _ hd hsq he (fun x hx => hall x (by simp [hx])) hcur t ht
    · have hplain : plainChar c := ⟨hsp, hc.1, hc.2.1, hc.2.2⟩
      rw [scanStep_plain st c hplain] at ht
      simp only [List.nil_append] at ht
      refine ih _ (by simp [hd]) (by simp [hsq]) (by simp)
        (fun x hx => hall x (by simp [hx])) ?_ t ht
      intro x hx
      rw [push_data] at hx
      rcases List.mem_append.mp hx with hx | hx
      · exact hcur x hx
      · simp only [List.mem_singleton] at hx
        subst hx
        exact hplain

theorem runFlush_append_plain (tcs : List Char) :
    ∀ (cs : List Char) (st : ScanState), st.escaped = false →
      (∀ c ∈ tcs, plainChar c) →
      runFlush (tcs ++ cs) st =
        runFlush cs { st with current := ⟨st.current.data ++ tcs⟩ } := by
  induction tcs with
  | nil =>
    intro cs st _ _
    rw [List.append_nil]
    rfl
  | cons t ts ih =>
    intro cs st he hall
    have hplain : plainChar t := hall t (by simp)
    rw [List.cons_append, runFlush_cons, scanStep_plain st t hplain]
    simp only [List.nil_append]
    rw [ih cs _ (by simp) (fun x hx => hall x (by simp [hx]))]
    congr 1
    simp [push_data, he, List.append_assoc]

theorem runFlush_from_init (tcs cs : List Char)
    (h : ∀ c ∈ tcs, plainChar c) :
    runFlush (tcs ++ cs) initState =
      runFlush cs ⟨⟨tcs⟩, false, false, false⟩ := by
  have h1 := runFlush_append_plain tcs cs initState rfl h
  simpa [initState, data_empty] using h1

theorem splitArgs_joinSpace :
    ∀ toks : List String,
      (∀ t ∈ toks, t.data ≠ [] ∧ ∀ c ∈ t.data, plainChar c) →
      splitArgs (joinSpace toks) = toks := by
  intro toks
  induction toks with
  | nil => intro _; rfl
  | cons t ts ih =>
    intro h
    obtain ⟨hne, hplain⟩ := h t (by simp)
    have hpos : (String.mk t.data).length > 0 :=
      length_pos_of_data_ne_nil _ (by simpa using hne)
    cases ts with
    | nil =>
      show splitArgs t = [t]
      have heq := runFlush_from_init t.data [] hplain
      rw [List.append_nil] at heq
      rw [splitArgs_eq_runFlush, heq, runFlush_nil, if_pos hpos]
    | cons t2 ts2 =>
      have hjoin : joinSpace (t :: t2 :: ts2) = t ++ " " ++ joinSpace (t2 :: ts2) := rfl
      have hdata : (t ++ " " ++ joinSpace (t2 :: ts2)).data =
          t.data ++ (' ' :: (joinSpace (t2 :: ts2)).data) := by
        rw [append_data, append_data, List.append_assoc]
        rfl
      rw [hjoin, splitArgs_eq_runFlush, hdata,
        runFlush_from_init t.data _ hplain, runFlush_cons,
        scanStep_space _ rfl rfl rfl, if_pos hpos]
      have ihh := ih (fun x hx => h x (by simp [hx]))
      rw [splitArgs_eq_runFlush] at ihh
      simpa [initState] using ihh

/-- C8 counterexample: the parenthetical generalization to the tokens of an
arbitrary input fails — the quoted input `"a b"` tokenizes to `["a b"]`,
whose single-space re-join `a b` re-tokenizes to `["a", "b"]`, a different
sequence. -/
theorem retokenize_counterexample :
    splitArgs "\x22a b\x22" = ["a b"] ∧
    joinSpace (splitArgs "\x22a b\x22") = "a b" ∧
    splitArgs (joinSpace (splitArgs "\x22a b\x22")) = ["a", "b"] ∧
    splitArgs (joinSpace (splitArgs "\x22a b\x22")) ≠ splitArgs "\x22a b\x22" := by
  decide

/-- C8 amended: for every input string containing no quote or backslash
characters and no two consecutive spaces, joining the tokens produced by
`splitArgs` with single spaces and tokenizing again reproduces the same
token sequence.  (The parenthetical extension of the original claim to the
token list of an arbitrary input is dropped: a token produced from a quoted
input can itself contain a space and then re-splits.) -/
theorem retokenize_idempotent (s : String)
    (hq : ∀ c ∈ s.data, c ≠ dquoteChar ∧ c ≠ squoteChar ∧ c ≠ backslashChar)
    (_hs : noDoubleSpace s.data = true) :
    splitArgs (joinSpace (splitArgs s)) = splitArgs s := by
  apply splitArgs_joinSpace
  intro t ht
  rw [splitArgs_eq_runFlush] at ht
  refine runFlush_tokens_plain s.data initState rfl rfl rfl hq ?_ t ht
  intro c hc
  simp [initState, data_empty] at hc

/-- C8 amended witness: re-tokenizing the re-join of the tokens of `a b`
reproduces the same sequence. -/
theorem retokenize_idempotent_witness :
    splitArgs (joinSpace (splitArgs "a b")) = splitArgs "a b" :=
  retokenize_idempotent "a b" (by decide) (by decide)

end ChildProcess
